import Mathlib

/-!
Verification of `specmatchemp/match.py` (the `Match` and `MatchLincomb`
classes and their module-level parameter helpers).

Modelling conventions:
* Python floats are idealized as rationals (`ℚ`); a possibly-NaN float is
  `FV := Option ℚ` with `none` playing the role of NaN (NaN-propagating
  arithmetic, as in IEEE floats).
* External library functions that the source calls but does not define
  (`np.sqrt`, `scipy.ndimage.convolve1d`, `scipy.interpolate.LSQUnivariateSpline`
  evaluation, `specmatchemp.kernels.rot`, `lmfit.minimize`) are section
  variables: every theorem holds for each choice of these functions.
* Python exceptions (the explicit `raise ValueError`, `IndexError` from
  out-of-range numpy indexing, `KeyError` from a missing parameter) are
  modelled by `Option`: `none` means the call raised.
* In-place mutation of `self` is modelled by explicit state passing: a
  method becomes a function from the state to the new state.
-/

namespace SpecmatchEmp

/-- A float value: `none` models NaN. -/
abbrev FV := Option ℚ

/-- Elementwise model of `np.nan_to_num` on one value: NaN becomes 0. -/
def nanToNum (v : FV) : FV := some (v.getD 0)

/-- Model of the construction-time sanitization `x[np.isnan(x)] = 1`
applied to one value: NaN becomes 1, other values are kept. -/
def sanitizeV (v : FV) : FV := some (v.getD 1)

/-- NaN-propagating addition. -/
def fvAdd (a b : FV) : FV :=
  match a, b with
  | some x, some y => some (x + y)
  | _, _ => none

/-- NaN-propagating subtraction. -/
def fvSub (a b : FV) : FV :=
  match a, b with
  | some x, some y => some (x - y)
  | _, _ => none

/-- NaN-propagating multiplication. -/
def fvMul (a b : FV) : FV :=
  match a, b with
  | some x, some y => some (x * y)
  | _, _ => none

/-- NaN-propagating division (division by zero is idealized as rational
division, whose value at a zero divisor is 0). -/
def fvDiv (a b : FV) : FV :=
  match a, b with
  | some x, some y => some (x / y)
  | _, _ => none

/-- NaN-propagating squaring, `x**2`. -/
def fvSq (a : FV) : FV := a.map (fun x => x * x)

/-- Multiplication by a (non-NaN) scalar. -/
def fvSMul (c : ℚ) (a : FV) : FV := a.map (fun x => x * c)

/-- `np.sum`: NaN-propagating sum of a list, 0 on the empty list. -/
def fvSum (l : List FV) : FV := l.foldl fvAdd (some 0)

/-- The external `Spectrum` data object: wavelength grid, flux, flux
error, name.  Wavelength grids are modelled as NaN-free. -/
structure Spectrum where
  w : List ℚ
  s : List FV
  serr : List FV
  name : String
deriving DecidableEq

/-- Modelled from the spec: `specmatchemp.spectrum.Spectrum` is external
to `src/`; per the spec it exposes a wavelength array, flux array,
flux-error array and a name.  The source constructs one from a grid and a
name only (`Spectrum(w, name=...)`); the spec leaves the flux arrays of
such a spectrum unspecified, and the code overwrites them before any use,
so they are modelled as empty. -/
def mkSpectrum (w : List ℚ) (name : String) : Spectrum :=
  { w := w, s := [], serr := [], name := name }

/-- Sanitization applied to a whole spectrum: lines 44-47 of match.py,
`self.x.s[np.isnan(self.x.s)] = 1` and likewise for `serr`. -/
def sanitizeSpec (sp : Spectrum) : Spectrum :=
  { sp with s := sp.s.map sanitizeV, serr := sp.serr.map sanitizeV }

/-- `np.isclose` on two scalars with numpy defaults
`rtol=1e-5, atol=1e-8`: `|a - b| <= atol + rtol*|b|`. -/
def isCloseQ (a b : ℚ) : Bool :=
  decide (|a - b| ≤ 1 / 100000000 + |b| / 100000)

/-- `np.allclose` on two 1-D arrays, including numpy's length-1
broadcasting; `none` models the `ValueError` raised on incompatible
shapes. -/
def allcloseQ (a b : List ℚ) : Option Bool :=
  if a.length = b.length then
    some ((a.zip b).all (fun q => isCloseQ q.1 q.2))
  else if a.length = 1 then
    some (b.all (fun x => isCloseQ (a.headD 0) x))
  else if b.length = 1 then
    some (a.all (fun x => isCloseQ x (b.headD 0)))
  else none

/-- One lmfit parameter: value, vary flag, optional bounds. -/
structure ParamDef where
  value : ℚ
  vary : Bool
  minB : Option ℚ
  maxB : Option ℚ
deriving DecidableEq

/-- An `lmfit.Parameters` object: an ordered association list with
unique keys. -/
abbrev Params := List (String × ParamDef)

/-- `params.add(name, value, vary, min, max)`: replaces an existing entry
of that name, otherwise appends. -/
def Params.add : Params → String → ℚ → Bool → Option ℚ → Option ℚ → Params
  | [], nm, v, vy, mn, mx => [(nm, ⟨v, vy, mn, mx⟩)]
  | q :: rest, nm, v, vy, mn, mx =>
    if q.1 = nm then (nm, ⟨v, vy, mn, mx⟩) :: rest
    else q :: Params.add rest nm v vy mn mx

/-- `params[name]` lookup; `none` models the `KeyError`. -/
def Params.getP : Params → String → Option ParamDef
  | [], _ => none
  | q :: rest, nm => if q.1 = nm then some q.2 else Params.getP rest nm

/-- `name in params.valuesdict()`. -/
def Params.hasKey : Params → String → Bool
  | [], _ => false
  | q :: rest, nm => if q.1 = nm then true else Params.hasKey rest nm

/-- A Python int read back out of a parameter value (used for
`num_knots` / `num_refs` counts): `none` models the `TypeError` from
`range` on a non-integer; a negative integer yields an empty range, hence
count 0 (`Int.toNat` clamps). -/
def qToNat (q : ℚ) : Option ℕ :=
  if q.den = 1 then some q.num.toNat else none

/-- Sequencing of a fallible elementwise computation over a list
(`none` as soon as one element fails). -/
def seqOpt {α β : Type} (f : α → Option β) : List α → Option (List β)
  | [] => some []
  | a :: rest =>
    match f a, seqOpt f rest with
    | some b, some bs => some (b :: bs)
    | _, _ => none

/-- `add_spline_positions(params, knotx)` (match.py lines 398-413):
adds `num_knots` and `knotx_i`, all with `vary=False`. -/
def add_spline_positions (ps : Params) (knotx : List ℚ) : Params :=
  let ps1 := Params.add ps ("num_knots") (knotx.length : ℚ) false none none
  (List.range knotx.length).foldl
    (fun acc i => Params.add acc ("knotx_" ++ toString i) (knotx.getD i 0) false none none)
    ps1

/-- `add_vsini(params, vsini)` (lines 434-450): adds `num_refs` (vary
False) unless present, then `vsini_i` with lmfit's default `vary=True`. -/
def add_vsini (ps : Params) (vsini : List ℚ) : Params :=
  let ps1 := if Params.hasKey ps ("num_refs") then ps
             else Params.add ps ("num_refs") (vsini.length : ℚ) false none none
  (List.range vsini.length).foldl
    (fun acc i => Params.add acc ("vsini_" ++ toString i) (vsini.getD i 0) true none none)
    ps1

/-- `add_lincomb_coeffs(params, num_refs)` (lines 471-487): adds
`num_refs` (vary False) unless present, then `coeff_i` with value
`1/num_refs`, bounds [0,1], default `vary=True`. -/
def add_lincomb_coeffs (ps : Params) (num_refs : ℕ) : Params :=
  let ps1 := if Params.hasKey ps ("num_refs") then ps
             else Params.add ps ("num_refs") (num_refs : ℚ) false none none
  (List.range num_refs).foldl
    (fun acc i => Params.add acc ("coeff_" ++ toString i) (1 / (num_refs : ℚ)) true (some 0) (some 1))
    ps1

/-- `get_lincomb_coeffs(params)` (lines 490-505): reads `num_refs`, then
each `coeff_i`; `none` models the `KeyError`/`TypeError`. -/
def get_lincomb_coeffs (p : Params) : Option (List ℚ) :=
  match Params.getP p ("num_refs") with
  | none => none
  | some pd =>
    match qToNat pd.value with
    | none => none
    | some n => seqOpt (fun i => (Params.getP p ("coeff_" ++ toString i)).map (fun q => q.value)) (List.range n)

/-- Return value of `Match.objective`: a residual vector for `opt='lm'`,
a scalar chi-square for `opt='nelder'`, and Python's implicit `None` for
any other `opt` string. -/
inductive ObjRet where
  | vec (r : List FV)
  | scal (c : FV)
  | pynone
deriving DecidableEq

/-- The values `self.best_chisq` can hold: the initial `np.NaN` is
`scal none`. -/
abbrev BCVal := ObjRet

/-- `self.best_chisq = <objective return value>`. -/
def bcOfRet (r : ObjRet) : BCVal := r

/-- State of a `Match` object (its `self` attributes).  `spl` is `none`
before the first `create_model` call (the attribute does not exist yet). -/
structure MatchSt where
  w : List ℚ
  target : Spectrum
  reference : Spectrum
  modified : Spectrum
  best_params : Params
  best_chisq : BCVal
  mode : String
  opt : String
  knot_x : List ℚ
  spl : Option (List FV)
deriving DecidableEq

/-- State of a `MatchLincomb` object. -/
structure MatchLcSt where
  w : List ℚ
  target : Spectrum
  num_refs : ℕ
  refs : List Spectrum
  ref_chisq : Option (List FV)
  vsini : List ℚ
  broadened : List Spectrum
  modified : Spectrum
  best_params : Params
  best_chisq : BCVal
  mode : String
  opt : String
  knot_x : List ℚ
  spl : Option (List FV)
deriving DecidableEq

/-- The spline-knot computation shared by both constructors
(match.py lines 54-61 and 254-261): `interval = int(len(w)/6)`,
`knot_x = [w[interval*i] for i in 1..5]`; `none` models the `IndexError`
when an index is out of range (possible only for the empty grid). -/
def knotXOf (w : List ℚ) : Option (List ℚ) :=
  seqOpt (fun i => w.get? (w.length / 6 * (i + 1))) (List.range 5)

/-- `Match.__init__(target, reference, mode, opt)` (lines 20-61).
`none` models a raised exception (grid mismatch `ValueError`, or the
`IndexError` from knot indexing on an empty grid).  Note the order of the
source: `self.modified` is a copy of the *unsanitized* reference (line 41
precedes the NaN replacement of lines 44-47). -/
def mkMatch (target reference : Spectrum) (mode opt : String) : Option MatchSt :=
  match allcloseQ target.w reference.w with
  | some true =>
    match knotXOf target.w with
    | none => none
    | some kx =>
      some { w := target.w
             target := sanitizeSpec target
             reference := sanitizeSpec reference
             modified := reference
             best_params := []
             best_chisq := ObjRet.scal none
             mode := mode
             opt := opt
             knot_x := kx
             spl := none }
  | _ => none

section ExternalFunctions

/- External library functions, universally quantified:
`sqrtQ` models `np.sqrt`; `rotK` models `specmatchemp.kernels.rot`
(returns the pair `(varr, kernel)`); `conv1d` models
`scipy.ndimage.filters.convolve1d`; `splineEval` models fitting an
`LSQUnivariateSpline` to `(w, ratio)` with the given interior knots and
evaluating it on `w`. -/
variable (sqrtQ : ℚ → ℚ)
variable (rotK : ℕ → ℚ → ℚ → List ℚ × List ℚ)
variable (conv1d : List FV → List ℚ → List FV)
variable (splineEval : List ℚ → List FV → List ℚ → List FV)

/-- `Match.broaden(vsini, spec)` (lines 92-111): computes
`dv = (w[1]-w[0])/w[0] * 2.99792e5`, asks the kernel provider for a
151-point kernel, and convolves flux and flux error with it, mutating
`spec` in place and returning it.  `none` models the `IndexError` on a
grid with fewer than 2 samples. -/
def broadenSpec (w : List ℚ) (vs : ℚ) (spec : Spectrum) : Option Spectrum :=
  match w.get? 0, w.get? 1 with
  | some w0, some w1 =>
    let dv := (w1 - w0) / w0 * 299792
    let kernel := (rotK 151 dv vs).2
    some { spec with s := conv1d spec.s kernel, serr := conv1d spec.serr kernel }
  | _, _ => none

/-- `Match.create_model(params)` (lines 63-82): rebuilds `self.modified`
from `np.nan_to_num` of the reference, broadens it by `params['vsini']`,
fits the continuum spline to `target.s / modified.s`, stores the
evaluated spline in `self.spl` and multiplies it into the modified flux
and flux error.  `none` models a raised exception (`KeyError` on a
missing `vsini` — which the source hits after the two `nan_to_num`
assignments — or the `IndexError` inside `broaden`). -/
def createModel (p : Params) (st : MatchSt) : Option MatchSt :=
  match Params.getP p ("vsini") with
  | none => none
  | some vp =>
    let m1 : Spectrum := { st.modified with
                           s := st.reference.s.map nanToNum
                           serr := st.reference.serr.map nanToNum }
    match broadenSpec rotK conv1d st.w vp.value m1 with
    | none => none
    | some m2 =>
      let ratio := List.zipWith fvDiv st.target.s m2.s
      let spl := splineEval st.w ratio st.knot_x
      some { st with
             modified := { m2 with
                           s := List.zipWith fvMul m2.s spl
                           serr := List.zipWith fvMul m2.serr spl }
             spl := some spl }

/-- The residual computation of `Match.objective` (lines 127-131):
`(target.s - modified.s) / np.sqrt(target.serr**2 + modified.serr**2)`
in `normalized` mode, `target.s - modified.s` otherwise. -/
def residualsCalc (mode : String) (t m : Spectrum) : List FV :=
  if mode = "normalized" then
    List.zipWith fvDiv (List.zipWith fvSub t.s m.s)
      (List.zipWith (fun a b => Option.map sqrtQ (fvAdd (fvSq a) (fvSq b))) t.serr m.serr)
  else
    List.zipWith fvSub t.s m.s

/-- The value computed by the tail of `Match.objective` (lines 127-138):
residual vector for `opt='lm'`, `chi_square = np.sum(residuals**2)` for
`opt='nelder'`, Python `None` otherwise. -/
def objectiveRet (mode opt : String) (t m : Spectrum) : ObjRet :=
  let residuals := residualsCalc sqrtQ mode t m
  let chi_square := fvSum (residuals.map fvSq)
  if opt = "lm" then ObjRet.vec residuals
  else if opt = "nelder" then ObjRet.scal chi_square
  else ObjRet.pynone

/-- `Match.objective(params)` (lines 113-138): calls `create_model`,
then computes the residuals/chi-square from the updated state. -/
def matchObjective (p : Params) (st : MatchSt) : Option (ObjRet × MatchSt) :=
  match createModel rotK conv1d splineEval p st with
  | none => none
  | some st2 => some (objectiveRet sqrtQ st2.mode st2.opt st2.target st2.modified, st2)

/-- `Match.load_params(params)` (lines 84-90): evaluates the objective
once and stores its raw return value as `best_chisq` and the given
parameters as `best_params`. -/
def loadParams (p : Params) (st : MatchSt) : Option MatchSt :=
  match matchObjective sqrtQ rotK conv1d splineEval p st with
  | none => none
  | some (r, st2) => some { st2 with best_chisq := bcOfRet r, best_params := p }

/-- `Match.best_fit(params)` (lines 140-165): seeds `vsini` and the
spline positions, runs the external minimizer (`minimizeFn`, modelling
`lmfit.minimize`, which returns `out.params`), and stores
`np.sum(objective(out.params)**2)` (`opt='lm'`) or
`objective(out.params)` (`opt='nelder'`) as `best_chisq` and
`out.params` as `best_params`, returning `best_chisq`.  For any other
`opt` the source raises `NameError` (`out` is unbound), modelled as
`none`.  The minimizer's internal objective evaluations only overwrite
`modified`/`spl`, which the final objective call overwrites again, so
they are not modelled separately. -/
def matchBestFit (minimizeFn : Params → Params) (p0 : Option Params) (st : MatchSt) :
    Option (BCVal × MatchSt) :=
  let ps0 := p0.getD []
  let ps1 := Params.add ps0 ("vsini") 1 true (some 0) (some 10)
  let ps2 := add_spline_positions ps1 st.knot_x
  if st.opt = "lm" then
    let outp := minimizeFn ps2
    match matchObjective sqrtQ rotK conv1d splineEval outp st with
    | none => none
    | some (ObjRet.vec r, st2) =>
      let bc := ObjRet.scal (fvSum (r.map fvSq))
      some (bc, { st2 with best_chisq := bc, best_params := outp })
    | some (ObjRet.scal c, st2) =>
      let bc := ObjRet.scal (fvSq c)
      some (bc, { st2 with best_chisq := bc, best_params := outp })
    | some (ObjRet.pynone, _) => none
  else if st.opt = "nelder" then
    let outp := minimizeFn ps2
    match matchObjective sqrtQ rotK conv1d splineEval outp st with
    | none => none
    | some (r, st2) => some (bcOfRet r, { st2 with best_chisq := bcOfRet r, best_params := outp })
  else none

/-- The grid-check loop of `MatchLincomb.__init__` (lines 225-229):
`false` when some reference fails (or numpy raises inside) `allclose`. -/
def checkGrids (tw : List ℚ) : List Spectrum → Bool
  | [] => true
  | r :: rest =>
    match allcloseQ tw r.w with
    | some true => checkGrids tw rest
    | _ => false

/-- `MatchLincomb.__init__(target, refs, vsini, mode)` (lines 214-261).
Unlike `Match.__init__`, it performs no NaN sanitization.  `broaden`
mutates its argument in place and returns it, so after the broadening
loop `self.refs[i]` and `self.broadened[i]` are the same (broadened)
object; both fields therefore hold the broadened list.  `none` models a
raised exception (grid mismatch, `IndexError` from `vsini[i]` or from
`w[1]` inside `broaden`, or from knot indexing on an empty grid). -/
def mkMatchLincomb (target : Spectrum) (refs : List Spectrum) (vsini : List ℚ) (mode : String) :
    Option MatchLcSt :=
  if checkGrids target.w refs then
    let w := target.w
    match seqOpt (fun i =>
        match vsini.get? i, refs.get? i with
        | some v, some r => broadenSpec rotK conv1d w v r
        | _, _ => none) (List.range refs.length) with
    | none => none
    | some bl =>
      match knotXOf w with
      | none => none
      | some kx =>
        some { w := w
               target := target
               num_refs := refs.length
               refs := bl
               ref_chisq := none
               vsini := vsini
               broadened := bl
               modified := mkSpectrum w ("Linear Combination " ++ toString refs.length)
               best_params := []
               best_chisq := ObjRet.scal none
               mode := mode
               opt := "nelder"
               knot_x := kx
               spl := none }
  else none

/-- The accumulation loop of `MatchLincomb.create_model` (lines 274-276):
`modified.s += broadened[i].s * coeffs[i]` and likewise for `serr`, for
`i` in `range(num_refs)`.  `none` models the `IndexError` from
`coeffs[i]` or `broadened[i]`. -/
def lincombLoop (br : List Spectrum) (cs : List ℚ) :
    List ℕ → List FV × List FV → Option (List FV × List FV)
  | [], acc => some acc
  | i :: rest, acc =>
    match cs.get? i, br.get? i with
    | some c, some b =>
      lincombLoop br cs rest
        (List.zipWith fvAdd acc.1 (b.s.map (fvSMul c)),
         List.zipWith fvAdd acc.2 (b.serr.map (fvSMul c)))
    | _, _ => none

/-- `MatchLincomb.create_model(params)` (lines 263-284): zeroes the
modified buffer, accumulates the coefficient-weighted broadened spectra,
then fits and applies the continuum spline exactly as in `Match`. -/
def lcCreateModel (p : Params) (st : MatchLcSt) : Option MatchLcSt :=
  match get_lincomb_coeffs p with
  | none => none
  | some coeffs =>
    let zs : List FV := st.w.map (fun _ => some 0)
    match lincombLoop st.broadened coeffs (List.range st.num_refs) (zs, zs) with
    | none => none
    | some acc =>
      let m1 : Spectrum := { st.modified with s := acc.1, serr := acc.2 }
      let ratio := List.zipWith fvDiv st.target.s m1.s
      let spl := splineEval st.w ratio st.knot_x
      some { st with
             modified := { m1 with
                           s := List.zipWith fvMul m1.s spl
                           serr := List.zipWith fvMul m1.serr spl }
             spl := some spl }

/-- `MatchLincomb.objective(params)` (lines 286-304): evaluates the
inherited objective body (with `create_model` dispatching to the
linear-combination variant), then adds the Gaussian prior
`(sum(coeffs) - 1)**2 / (2 * WIDTH**2)` with `WIDTH = 1e-2`.  When the
inherited objective returns a residual vector (`opt='lm'`), the numpy
`+=` broadcasts the penalty over the vector; when it returns Python
`None` (unknown `opt`), `+=` raises `TypeError`, modelled as `none`. -/
def lcObjective (p : Params) (st : MatchLcSt) : Option (ObjRet × MatchLcSt) :=
  match lcCreateModel splineEval p st with
  | none => none
  | some st2 =>
    match get_lincomb_coeffs p with
    | none => none
    | some cs =>
      match objectiveRet sqrtQ st2.mode st2.opt st2.target st2.modified with
      | ObjRet.vec r =>
        some (ObjRet.vec (r.map (fun v => fvAdd v (some ((cs.sum - 1) ^ 2 / (2 * (1 / 100 : ℚ) ^ 2))))), st2)
      | ObjRet.scal c =>
        some (ObjRet.scal (fvAdd c (some ((cs.sum - 1) ^ 2 / (2 * (1 / 100 : ℚ) ^ 2)))), st2)
      | ObjRet.pynone => none

/-- `MatchLincomb.best_fit()` (lines 306-331): seeds coefficients,
spline positions and the fixed per-reference `vsini`, runs the external
minimizer, stores `out.params` as `best_params` and
`objective(best_params)` as `best_chisq`, and returns `best_chisq`. -/
def lcBestFit (minimizeFn : Params → Params) (st : MatchLcSt) : Option (BCVal × MatchLcSt) :=
  let ps1 := add_lincomb_coeffs [] st.num_refs
  let ps2 := add_spline_positions ps1 st.knot_x
  let ps3 := add_vsini ps2 st.vsini
  let outp := minimizeFn ps3
  match lcObjective sqrtQ splineEval outp st with
  | none => none
  | some (ret, st2) =>
    some (bcOfRet ret, { st2 with best_params := outp, best_chisq := bcOfRet ret })

end ExternalFunctions

/-! Concrete instantiations of the external functions and small concrete
states, used to evaluate the verified operations on explicit inputs. -/

def sqrtW : ℚ → ℚ := fun q => q

def rotKW : ℕ → ℚ → ℚ → List ℚ × List ℚ := fun _ _ _ => ([], [])

def convW : List FV → List ℚ → List FV := fun s _ => s

def splineW : List ℚ → List FV → List ℚ → List FV := fun w _ _ => w.map (fun _ => some 1)

def TG : Spectrum := ⟨[1, 2], [none, some 3], [some 1, none], "t"⟩

def RF : Spectrum := ⟨[1, 2], [some 2, none], [none, some 4], "r"⟩

def stC : MatchSt :=
  { w := [1, 2], target := sanitizeSpec TG, reference := sanitizeSpec RF, modified := RF,
    best_params := [], best_chisq := ObjRet.scal none, mode := "default", opt := "nelder",
    knot_x := [1, 1, 1, 1, 1], spl := none }

def TGN : Spectrum := ⟨[1, 2], [some 3], [some 1], "t"⟩

def RFN : Spectrum := ⟨[1, 2], [some 2], [some 1], "r"⟩

def pV : Params := [("vsini", ⟨1, true, some 0, some 10⟩)]

def stN : MatchSt :=
  { w := [1, 2], target := TGN, reference := RFN, modified := RFN,
    best_params := [], best_chisq := ObjRet.scal none, mode := "normalized", opt := "nelder",
    knot_x := [1, 1, 1, 1, 1], spl := none }

def stN2 : MatchSt := { stN with spl := some [some 1, some 1] }

def stL : MatchSt := { stN with opt := "lm" }

def stL2 : MatchSt :=
  { stN with
    opt := "lm"
    spl := some [some 1, some 1]
    best_chisq := ObjRet.vec [some (1 / 2)]
    best_params := pV }

def pLC : Params :=
  [("num_refs", ⟨1, false, none, none⟩), ("coeff_0", ⟨1, true, some 0, some 1⟩)]

def stLCc : MatchLcSt :=
  { w := [1, 2], target := TGN, num_refs := 1, refs := [RFN], ref_chisq := none,
    vsini := [1], broadened := [RFN], modified := mkSpectrum [1, 2] "Linear Combination 1",
    best_params := [], best_chisq := ObjRet.scal none, mode := "default", opt := "nelder",
    knot_x := [1, 1, 1, 1, 1], spl := none }

def stLCc2 : MatchLcSt :=
  { stLCc with
    modified := ⟨[1, 2], [some 2], [some 1], "Linear Combination 1"⟩
    spl := some [some 1, some 1] }

def minimizeW : Params → Params := fun _ => pV

/-! Helper lemmas. -/

theorem seqOpt_eq_some {α β : Type} (f : α → Option β) (l : List α) :
    ∀ l2, seqOpt f l = some l2 →
      l2.length = l.length ∧ ∀ k, l2.get? k = (l.get? k).bind f := by
  induction l with
  | nil =>
    intro l2 h
    simp [seqOpt] at h
    subst h
    simp
  | cons a rest ih =>
    intro l2 h
    simp only [seqOpt] at h
    cases hfa : f a with
    | none => rw [hfa] at h; exact absurd h (by simp)
    | some b =>
      cases hrest : seqOpt f rest with
      | none => rw [hfa, hrest] at h; exact absurd h (by simp)
      | some bs =>
        rw [hfa, hrest] at h
        simp at h
        subst h
        obtain ⟨hlen, hget⟩ := ih bs hrest
        refine ⟨by simp [hlen], fun k => ?_⟩
        cases k with
        | zero => simp [hfa]
        | succ k2 => simpa using hget k2

theorem seqOpt_total {α β : Type} (f : α → Option β) (l : List α)
    (h : ∀ a ∈ l, (f a).isSome) : ∃ l2, seqOpt f l = some l2 := by
  induction l with
  | nil => exact ⟨[], rfl⟩
  | cons a rest ih =>
    obtain ⟨b, hb⟩ := Option.isSome_iff_exists.mp (h a (by simp))
    obtain ⟨bs, hbs⟩ := ih (fun x hx => h x (by simp [hx]))
    exact ⟨b :: bs, by simp [seqOpt, hb, hbs]⟩

theorem isCloseQ_self (x : ℚ) : isCloseQ x x = true := by
  simp only [isCloseQ, sub_self, abs_zero, decide_eq_true_eq]
  positivity

theorem zipSelfAll (w : List ℚ) : (w.zip w).all (fun q => isCloseQ q.1 q.2) = true := by
  induction w with
  | nil => rfl
  | cons a rest ih => simp [List.zip_cons_cons, ih, isCloseQ_self]

theorem allcloseQ_self (w : List ℚ) : allcloseQ w w = some true := by
  simp [allcloseQ, zipSelfAll]

theorem knotXOf_isSome (w : List ℚ) (h : w ≠ []) :
    ∃ kx, knotXOf w = some kx ∧ kx.length = 5 := by
  have hlen : 1 ≤ w.length := List.length_pos.mpr h
  obtain ⟨kx, hkx⟩ := seqOpt_total (fun i => w.get? (w.length / 6 * (i + 1))) (List.range 5)
    (by
      intro i hi
      have hi5 : i < 5 := List.mem_range.mp hi
      have hidx : w.length / 6 * (i + 1) < w.length := by interval_cases i <;> omega
      show (w.get? (w.length / 6 * (i + 1))).isSome = true
      rw [List.get?_eq_get hidx]
      rfl)
  exact ⟨kx, hkx, by simpa [List.length_range] using (seqOpt_eq_some _ _ _ hkx).1⟩

theorem checkGrids_eq_true (tw : List ℚ) (refs : List Spectrum) :
    checkGrids tw refs = true ↔ ∀ r ∈ refs, allcloseQ tw r.w = some true := by
  induction refs with
  | nil => simp [checkGrids]
  | cons r rest ih =>
    constructor
    · intro h
      simp only [checkGrids] at h
      cases hr : allcloseQ tw r.w with
      | none => rw [hr] at h; exact absurd h (by simp)
      | some b =>
        cases b with
        | false => rw [hr] at h; exact absurd h (by simp)
        | true =>
          rw [hr] at h
          intro x hx
          rcases List.mem_cons.mp hx with hx | hx
          · subst hx; exact hr
          · exact (ih.mp h) x hx
    · intro h
      simp only [checkGrids]
      rw [h r (by simp)]
      exact ih.mpr (fun x hx => h x (by simp [hx]))

/-! Theorems for the claims. -/

/-- C1 counterexample: with target and reference both on the *empty*
wavelength grid the two grids are elementwise equal, yet `Match`
construction raises (an `IndexError` while computing the spline knots,
since `interval = 0` and `self.w[0]` is out of range), contradicting the
claim that construction succeeds whenever the grids are equal. -/
theorem c1_counterexample :
    (Spectrum.mk [] [] [] "t").w = (Spectrum.mk [] [] [] "r").w ∧
    mkMatch (Spectrum.mk [] [] [] "t") (Spectrum.mk [] [] [] "r") "default" "nelder" = none :=
  ⟨rfl, rfl⟩

/-- C1 (amended): a fit session whose target and reference grids fail
numpy's `allclose` test (including its raising on broadcast-incompatible
shapes) never constructs; with elementwise-equal grids construction
succeeds provided the grid is nonempty (`Match`), respectively has at
least 2 samples and `vsini` covers every reference (`MatchLincomb`). -/
theorem c1_grid_check :
    (∀ (t r : Spectrum) (mode opt : String),
      allcloseQ t.w r.w ≠ some true → mkMatch t r mode opt = none) ∧
    (∀ (t r : Spectrum) (mode opt : String), t.w = r.w → t.w ≠ [] →
      ∃ st, mkMatch t r mode opt = some st) ∧
    (∀ (rotK : ℕ → ℚ → ℚ → List ℚ × List ℚ) (conv1d : List FV → List ℚ → List FV)
      (t : Spectrum) (refs : List Spectrum) (vs : List ℚ) (mode : String),
      (∃ r ∈ refs, allcloseQ t.w r.w ≠ some true) →
      mkMatchLincomb rotK conv1d t refs vs mode = none) ∧
    (∀ (rotK : ℕ → ℚ → ℚ → List ℚ × List ℚ) (conv1d : List FV → List ℚ → List FV)
      (t : Spectrum) (refs : List Spectrum) (vs : List ℚ) (mode : String),
      (∀ r ∈ refs, r.w = t.w) → 2 ≤ t.w.length → refs.length ≤ vs.length →
      ∃ st, mkMatchLincomb rotK conv1d t refs vs mode = some st) := by
  refine ⟨?_, ?_, ?_, ?_⟩
  · intro t r mode opt h
    unfold mkMatch
    cases hac : allcloseQ t.w r.w with
    | none => rfl
    | some b =>
      cases b with
      | false => rfl
      | true => exact absurd hac h
  · intro t r mode opt hw hne
    have hac : allcloseQ t.w r.w = some true := by rw [← hw]; exact allcloseQ_self t.w
    obtain ⟨kx, hkx, _⟩ := knotXOf_isSome t.w hne
    exact ⟨_, by rw [mkMatch, hac, hkx]⟩
  · intro rotK conv1d t refs vs mode h
    have hcg : checkGrids t.w refs = false := by
      rcases h with ⟨r, hr, hne⟩
      cases hc : checkGrids t.w refs with
      | false => rfl
      | true => exact absurd ((checkGrids_eq_true t.w refs).mp hc r hr) hne
    simp [mkMatchLincomb, hcg]
  · intro rotK conv1d t refs vs mode hw hlen hvs
    have hcg : checkGrids t.w refs = true :=
      (checkGrids_eq_true t.w refs).mpr (fun r hr => by rw [hw r hr]; exact allcloseQ_self t.w)
    have h0 : t.w.get? 0 ≠ none := by
      rw [List.get?_eq_get (by omega)]; simp
    have h1 : t.w.get? 1 ≠ none := by
      rw [List.get?_eq_get (by omega)]; simp
    obtain ⟨bl, hbl⟩ := seqOpt_total
      (fun i => match vs.get? i, refs.get? i with
        | some v, some r => broadenSpec rotK conv1d t.w v r
        | _, _ => none)
      (List.range refs.length)
      (by
        intro i hi
        have hir : i < refs.length := List.mem_range.mp hi
        have hvsi : vs.get? i = some (vs.get ⟨i, by omega⟩) := List.get?_eq_get (by omega)
        have hri : refs.get? i = some (refs.get ⟨i, hir⟩) := List.get?_eq_get hir
        show (match vs.get? i, refs.get? i with
          | some v, some r => broadenSpec rotK conv1d t.w v r
          | _, _ => none).isSome = true
        rw [hvsi, hri]
        unfold broadenSpec
        cases hg0 : t.w.get? 0 with
        | none => exact absurd hg0 h0
        | some w0 =>
          cases hg1 : t.w.get? 1 with
          | none => exact absurd hg1 h1
          | some w1 => rfl)
    obtain ⟨kx, hkx, _⟩ := knotXOf_isSome t.w (by
      intro hnil
      rw [hnil] at hlen
      simp at hlen)
    have hsome : (mkMatchLincomb rotK conv1d t refs vs mode).isSome := by
      simp only [mkMatchLincomb, hcg, if_true, hbl, hkx]
      rfl
    exact Option.isSome_iff_exists.mp hsome

/-- C1 witness: with the common grid `[1, 2]` both constructions of the
amended claim evaluate concretely. -/
theorem c1_witness : (mkMatch TG RF "default" "nelder").isSome = true := by
  obtain ⟨st, h⟩ := c1_grid_check.2.1 TG RF "default" "nelder" rfl (by decide)
  rw [h]
  rfl

/-- C2 counterexample: `MatchLincomb` construction succeeds on a target
whose flux is entirely NaN, and the stored target still holds the NaN
(`none`) — no NaN value was replaced by 1 at construction time. -/
theorem c2_counterexample :
    Option.map (fun st => st.target.s)
      (mkMatchLincomb rotKW convW (Spectrum.mk [1, 2] [none] [none] "t") [] [] "default") =
      some [none] := by
  norm_num [mkMatchLincomb, checkGrids, knotXOf, seqOpt, allcloseQ, isCloseQ]

/-- C2 (amended): `Match.__init__` replaces every NaN flux/flux-error
value of its target and reference copies by 1, so the sanitized arrays
are NaN-free and the per-evaluation `np.nan_to_num` in
`Match.create_model` is a no-op on them; `MatchLincomb.__init__`, by
contrast, performs no NaN replacement at all (its stored target is the
unmodified input). -/
theorem c2_nan_sanitization :
    (∀ (t r : Spectrum) (mode opt : String) (st : MatchSt),
      mkMatch t r mode opt = some st →
      st.target.s = t.s.map sanitizeV ∧ st.target.serr = t.serr.map sanitizeV ∧
      st.reference.s = r.s.map sanitizeV ∧ st.reference.serr = r.serr.map sanitizeV ∧
      (∀ v ∈ st.target.s, v ≠ none) ∧ (∀ v ∈ st.target.serr, v ≠ none) ∧
      (∀ v ∈ st.reference.s, v ≠ none) ∧ (∀ v ∈ st.reference.serr, v ≠ none) ∧
      st.reference.s.map nanToNum = st.reference.s ∧
      st.reference.serr.map nanToNum = st.reference.serr) ∧
    (∀ (rotK : ℕ → ℚ → ℚ → List ℚ × List ℚ) (conv1d : List FV → List ℚ → List FV)
      (t : Spectrum) (refs : List Spectrum) (vs : List ℚ) (mode : String) (st : MatchLcSt),
      mkMatchLincomb rotK conv1d t refs vs mode = some st → st.target = t) := by
  constructor
  · intro t r mode opt st h
    unfold mkMatch at h
    split at h
    · split at h
      · simp at h
      · injection h with h
        subst h
        refine ⟨rfl, rfl, rfl, rfl, ?_, ?_, ?_, ?_, ?_, ?_⟩
        · intro v hv
          simp only [sanitizeSpec, List.mem_map] at hv
          obtain ⟨x, -, hx⟩ := hv
          subst hx
          simp [sanitizeV]
        · intro v hv
          simp only [sanitizeSpec, List.mem_map] at hv
          obtain ⟨x, -, hx⟩ := hv
          subst hx
          simp [sanitizeV]
        · intro v hv
          simp only [sanitizeSpec, List.mem_map] at hv
          obtain ⟨x, -, hx⟩ := hv
          subst hx
          simp [sanitizeV]
        · intro v hv
          simp only [sanitizeSpec, List.mem_map] at hv
          obtain ⟨x, -, hx⟩ := hv
          subst hx
          simp [sanitizeV]
        · show ((sanitizeSpec r).s).map nanToNum = (sanitizeSpec r).s
          simp only [sanitizeSpec, List.map_map]
          rfl
        · show ((sanitizeSpec r).serr).map nanToNum = (sanitizeSpec r).serr
          simp only [sanitizeSpec, List.map_map]
          rfl
    · simp at h
  · intro rotK conv1d t refs vs mode st h
    simp only [mkMatchLincomb] at h
    split at h
    · split at h
      · simp at h
      · split at h
        · simp at h
        · injection h with h
          subst h
          rfl
    · simp at h

/-- C2 witness: the `Match` sanitization evaluated on spectra with
concrete NaN entries. -/
theorem c2_witness : stC.target.s = TG.s.map sanitizeV :=
  (c2_nan_sanitization.1 TG RF "default" "nelder" stC (by
    norm_num [mkMatch, allcloseQ, isCloseQ, knotXOf, seqOpt, sanitizeSpec, sanitizeV,
      TG, RF, stC])).1

theorem broadenSpec_fields (rotK : ℕ → ℚ → ℚ → List ℚ × List ℚ)
    (conv1d : List FV → List ℚ → List FV) (w : List ℚ) (vs : ℚ) (sp sp2 : Spectrum)
    (h : broadenSpec rotK conv1d w vs sp = some sp2) :
    sp2.w = sp.w ∧ sp2.name = sp.name ∧
    ∃ k, sp2.s = conv1d sp.s k ∧ sp2.serr = conv1d sp.serr k := by
  unfold broadenSpec at h
  split at h
  · injection h with h
    subst h
    exact ⟨rfl, rfl, _, rfl, rfl⟩
  · simp at h

theorem createModel_frame (rotK : ℕ → ℚ → ℚ → List ℚ × List ℚ)
    (conv1d : List FV → List ℚ → List FV) (splineEval : List ℚ → List FV → List ℚ → List FV)
    (p : Params) (st st2 : MatchSt)
    (h : createModel rotK conv1d splineEval p st = some st2) :
    st2.w = st.w ∧ st2.target = st.target ∧ st2.reference = st.reference ∧
    st2.knot_x = st.knot_x ∧ st2.mode = st.mode ∧ st2.opt = st.opt ∧
    st2.best_params = st.best_params ∧ st2.best_chisq = st.best_chisq ∧
    st2.modified.w = st.modified.w ∧ st2.modified.name = st.modified.name := by
  simp only [createModel] at h
  split at h
  · simp at h
  · split at h
    · simp at h
    · rename_i vp hvp m2 hm2
      injection h with h
      subst h
      obtain ⟨hw, hn, -⟩ := broadenSpec_fields _ _ _ _ _ _ hm2
      exact ⟨rfl, rfl, rfl, rfl, rfl, rfl, rfl, rfl, by simpa using hw, by simpa using hn⟩

theorem lcCreateModel_frame (splineEval : List ℚ → List FV → List ℚ → List FV)
    (p : Params) (st st2 : MatchLcSt)
    (h : lcCreateModel splineEval p st = some st2) :
    st2.w = st.w ∧ st2.target = st.target ∧ st2.num_refs = st.num_refs ∧
    st2.refs = st.refs ∧ st2.ref_chisq = st.ref_chisq ∧ st2.vsini = st.vsini ∧
    st2.broadened = st.broadened ∧ st2.knot_x = st.knot_x ∧
    st2.mode = st.mode ∧ st2.opt = st.opt ∧
    st2.best_params = st.best_params ∧ st2.best_chisq = st.best_chisq ∧
    st2.modified.w = st.modified.w ∧ st2.modified.name = st.modified.name := by
  simp only [lcCreateModel] at h
  split at h
  · simp at h
  · split at h
    · simp at h
    · injection h with h
      subst h
      exact ⟨rfl, rfl, rfl, rfl, rfl, rfl, rfl, rfl, rfl, rfl, rfl, rfl, rfl, rfl⟩

theorem get?_zipWith_of {α β γ : Type} (f : α → β → γ) (as : List α) (bs : List β) (k : ℕ)
    (a : α) (b : β) (ha : as.get? k = some a) (hb : bs.get? k = some b) :
    (List.zipWith f as bs).get? k = some (f a b) := by
  rw [List.get?_zipWith', ha, hb]
  rfl

theorem getP_add_cases (ps : Params) (nm : String) (v : ℚ) (vy : Bool) (mn mx : Option ℚ)
    (nm2 : String) (pd : ParamDef)
    (h : Params.getP (Params.add ps nm v vy mn mx) nm2 = some pd) :
    Params.getP ps nm2 = some pd ∨ pd = ⟨v, vy, mn, mx⟩ := by
  induction ps with
  | nil =>
    simp only [Params.add, Params.getP] at h
    by_cases hn : nm = nm2
    · rw [if_pos hn] at h
      injection h with h
      exact Or.inr h.symm
    · rw [if_neg hn] at h
      exact absurd h (by simp)
  | cons q rest ih =>
    simp only [Params.add] at h
    by_cases hq : q.1 = nm
    · rw [if_pos hq] at h
      simp only [Params.getP] at h
      by_cases hn : nm = nm2
      · rw [if_pos hn] at h
        injection h with h
        exact Or.inr h.symm
      · rw [if_neg hn] at h
        refine Or.inl ?_
        simp only [Params.getP]
        rw [if_neg (by rw [hq]; exact hn)]
        exact h
    · rw [if_neg hq] at h
      simp only [Params.getP] at h
      by_cases hn2 : q.1 = nm2
      · rw [if_pos hn2] at h
        exact Or.inl (by simp only [Params.getP]; rw [if_pos hn2]; exact h)
      · rw [if_neg hn2] at h
        rcases ih h with h2 | h2
        · exact Or.inl (by simp only [Params.getP]; rw [if_neg hn2]; exact h2)
        · exact Or.inr h2

theorem getP_foldl_add_cases (g : ℕ → String) (vf : ℕ → ℚ) (vy : Bool) (mn mx : Option ℚ)
    (l : List ℕ) :
    ∀ (ps : Params) (nm : String) (pd : ParamDef),
      Params.getP (l.foldl (fun acc i => Params.add acc (g i) (vf i) vy mn mx) ps) nm = some pd →
      Params.getP ps nm = some pd ∨ pd.vary = vy := by
  induction l with
  | nil => exact fun ps nm pd h => Or.inl h
  | cons i rest ih =>
    intro ps nm pd h
    rw [List.foldl_cons] at h
    rcases ih _ nm pd h with h2 | h2
    · rcases getP_add_cases _ _ _ _ _ _ _ _ h2 with h3 | h3
      · exact Or.inl h3
      · subst h3
        exact Or.inr rfl
    · exact Or.inr h2

theorem knotXOf_get (w : List ℚ) (kx : List ℚ) (h : knotXOf w = some kx) :
    kx.length = 5 ∧ ∀ i, i < 5 → kx.get? i = w.get? (w.length / 6 * (i + 1)) := by
  obtain ⟨hlen, hget⟩ := seqOpt_eq_some _ _ _ h
  refine ⟨by simpa using hlen, fun i hi => ?_⟩
  rw [hget i, List.get?_range hi]
  rfl

theorem mkMatch_fields (t r : Spectrum) (mode opt : String) (st : MatchSt)
    (h : mkMatch t r mode opt = some st) :
    st.w = t.w ∧ knotXOf t.w = some st.knot_x ∧ st.mode = mode ∧ st.opt = opt ∧
    st.modified = r ∧ st.best_params = [] := by
  unfold mkMatch at h
  split at h
  · split at h
    · exact absurd h (by simp)
    · rename_i kx hkx
      injection h with h
      subst h
      exact ⟨rfl, hkx, rfl, rfl, rfl, rfl⟩
  · exact absurd h (by simp)

theorem mkMatchLincomb_fields (rotK : ℕ → ℚ → ℚ → List ℚ × List ℚ)
    (conv1d : List FV → List ℚ → List FV) (t : Spectrum) (refs : List Spectrum)
    (vs : List ℚ) (mode : String) (st : MatchLcSt)
    (h : mkMatchLincomb rotK conv1d t refs vs mode = some st) :
    st.w = t.w ∧ knotXOf t.w = some st.knot_x ∧ st.num_refs = refs.length ∧
    st.refs = st.broadened ∧ st.opt = "nelder" ∧ st.mode = mode ∧ st.vsini = vs ∧
    seqOpt (fun i =>
      match vs.get? i, refs.get? i with
      | some v, some r => broadenSpec rotK conv1d t.w v r
      | _, _ => none) (List.range refs.length) = some st.broadened := by
  simp only [mkMatchLincomb] at h
  split at h
  · split at h
    · exact absurd h (by simp)
    · split at h
      · exact absurd h (by simp)
      · injection h with h
        subst h
        refine ⟨rfl, ?_, rfl, rfl, rfl, rfl, rfl, ?_⟩ <;> assumption
  · exact absurd h (by simp)

theorem matchObjective_parts (sqrtQ : ℚ → ℚ) (rotK : ℕ → ℚ → ℚ → List ℚ × List ℚ)
    (conv1d : List FV → List ℚ → List FV) (splineEval : List ℚ → List FV → List ℚ → List FV)
    (p : Params) (st : MatchSt) (ret : ObjRet) (st2 : MatchSt)
    (h : matchObjective sqrtQ rotK conv1d splineEval p st = some (ret, st2)) :
    createModel rotK conv1d splineEval p st = some st2 ∧
    ret = objectiveRet sqrtQ st2.mode st2.opt st2.target st2.modified := by
  unfold matchObjective at h
  split at h
  · exact absurd h (by simp)
  · rename_i st3 hcm
    simp only [Option.some.injEq, Prod.mk.injEq] at h
    obtain ⟨h1, h2⟩ := h
    subst h2
    exact ⟨hcm, h1.symm⟩

theorem lcObjective_parts (sqrtQ : ℚ → ℚ) (splineEval : List ℚ → List FV → List ℚ → List FV)
    (p : Params) (st : MatchLcSt) (ret : ObjRet) (st2 : MatchLcSt)
    (h : lcObjective sqrtQ splineEval p st = some (ret, st2)) :
    lcCreateModel splineEval p st = some st2 ∧
    ∃ cs, get_lincomb_coeffs p = some cs ∧
      ((∃ r, objectiveRet sqrtQ st2.mode st2.opt st2.target st2.modified = ObjRet.vec r ∧
        ret = ObjRet.vec (r.map (fun v => fvAdd v (some ((cs.sum - 1) ^ 2 / (2 * (1 / 100 : ℚ) ^ 2)))))) ∨
       (∃ c, objectiveRet sqrtQ st2.mode st2.opt st2.target st2.modified = ObjRet.scal c ∧
        ret = ObjRet.scal (fvAdd c (some ((cs.sum - 1) ^ 2 / (2 * (1 / 100 : ℚ) ^ 2)))))) := by
  unfold lcObjective at h
  split at h
  · exact absurd h (by simp)
  · rename_i st3 hcm
    split at h
    · exact absurd h (by simp)
    · rename_i cs hcs
      split at h
      · rename_i r hr
        simp only [Option.some.injEq, Prod.mk.injEq] at h
        obtain ⟨h1, h2⟩ := h
        subst h2
        exact ⟨hcm, cs, hcs, Or.inl ⟨r, hr, h1.symm⟩⟩
      · rename_i c hc
        simp only [Option.some.injEq, Prod.mk.injEq] at h
        obtain ⟨h1, h2⟩ := h
        subst h2
        exact ⟨hcm, cs, hcs, Or.inr ⟨c, hc, h1.symm⟩⟩
      · exact absurd h (by simp)

theorem loadParams_parts (sqrtQ : ℚ → ℚ) (rotK : ℕ → ℚ → ℚ → List ℚ × List ℚ)
    (conv1d : List FV → List ℚ → List FV) (splineEval : List ℚ → List FV → List ℚ → List FV)
    (p : Params) (st st2 : MatchSt)
    (h : loadParams sqrtQ rotK conv1d splineEval p st = some st2) :
    ∃ ret st3, matchObjective sqrtQ rotK conv1d splineEval p st = some (ret, st3) ∧
      st2 = { st3 with best_chisq := bcOfRet ret, best_params := p } := by
  unfold loadParams at h
  split at h
  · exact absurd h (by simp)
  · injection h with h
    exact ⟨_, _, by assumption, h.symm⟩

theorem matchBestFit_parts (sqrtQ : ℚ → ℚ) (rotK : ℕ → ℚ → ℚ → List ℚ × List ℚ)
    (conv1d : List FV → List ℚ → List FV) (splineEval : List ℚ → List FV → List ℚ → List FV)
    (mf : Params → Params) (p0 : Option Params) (st : MatchSt) (bc : BCVal) (st2 : MatchSt)
    (h : matchBestFit sqrtQ rotK conv1d splineEval mf p0 st = some (bc, st2)) :
    ∃ outp ret st3,
      matchObjective sqrtQ rotK conv1d splineEval outp st = some (ret, st3) ∧
      st2 = { st3 with best_chisq := bc, best_params := outp } ∧
      ((st.opt = "lm" ∧ ((∃ r, ret = ObjRet.vec r ∧ bc = ObjRet.scal (fvSum (r.map fvSq))) ∨
          (∃ c, ret = ObjRet.scal c ∧ bc = ObjRet.scal (fvSq c)))) ∨
       (st.opt = "nelder" ∧ bc = bcOfRet ret)) := by
  simp only [matchBestFit] at h
  split at h
  · rename_i hopt
    split at h
    · exact absurd h (by simp)
    · simp only [Option.some.injEq, Prod.mk.injEq] at h
      obtain ⟨hbc, hst⟩ := h
      subst hbc
      exact ⟨_, _, _, by assumption, hst.symm, Or.inl ⟨hopt, Or.inl ⟨_, rfl, rfl⟩⟩⟩
    · simp only [Option.some.injEq, Prod.mk.injEq] at h
      obtain ⟨hbc, hst⟩ := h
      subst hbc
      exact ⟨_, _, _, by assumption, hst.symm, Or.inl ⟨hopt, Or.inr ⟨_, rfl, rfl⟩⟩⟩
    · exact absurd h (by simp)
  · split at h
    · rename_i hopt2
      split at h
      · exact absurd h (by simp)
      · simp only [Option.some.injEq, Prod.mk.injEq] at h
        obtain ⟨hbc, hst⟩ := h
        subst hbc
        exact ⟨_, _, _, by assumption, hst.symm, Or.inr ⟨hopt2, rfl⟩⟩
    · exact absurd h (by simp)

theorem lcBestFit_parts (sqrtQ : ℚ → ℚ) (splineEval : List ℚ → List FV → List ℚ → List FV)
    (mf : Params → Params) (st : MatchLcSt) (bc : BCVal) (st2 : MatchLcSt)
    (h : lcBestFit sqrtQ splineEval mf st = some (bc, st2)) :
    ∃ outp ret st3,
      lcObjective sqrtQ splineEval outp st = some (ret, st3) ∧
      st2 = { st3 with best_params := outp, best_chisq := bcOfRet ret } ∧
      bc = bcOfRet ret := by
  simp only [lcBestFit] at h
  split at h
  · exact absurd h (by simp)
  · simp only [Option.some.injEq, Prod.mk.injEq] at h
    obtain ⟨hbc, hst⟩ := h
    subst hbc
    exact ⟨_, _, _, by assumption, hst.symm, rfl⟩

/-- C8: a successful `create_model` call (either variant) changes only
the modified-model buffer and the evaluated spline: the target spectrum,
the stored reference spectra (broadened list included), the common
wavelength grid and the knot array are exactly those of the pre-call
state.  (In this pure embedding the modified buffer is a separate field,
so the claim's non-aliasing clause is rendered by these frame
equalities: overwriting `modified`/`spl` cannot change any other
field.) -/
theorem c8_create_model_frame :
    (∀ (rotK : ℕ → ℚ → ℚ → List ℚ × List ℚ) (conv1d : List FV → List ℚ → List FV)
      (splineEval : List ℚ → List FV → List ℚ → List FV) (p : Params) (st st2 : MatchSt),
      createModel rotK conv1d splineEval p st = some st2 →
      st2.target = st.target ∧ st2.reference = st.reference ∧
      st2.w = st.w ∧ st2.knot_x = st.knot_x) ∧
    (∀ (splineEval : List ℚ → List FV → List ℚ → List FV) (p : Params) (st st2 : MatchLcSt),
      lcCreateModel splineEval p st = some st2 →
      st2.target = st.target ∧ st2.refs = st.refs ∧ st2.broadened = st.broadened ∧
      st2.w = st.w ∧ st2.knot_x = st.knot_x) := by
  constructor
  · intro rotK conv1d splineEval p st st2 h
    obtain ⟨h1, h2, h3, h4, -⟩ := createModel_frame rotK conv1d splineEval p st st2 h
    exact ⟨h2, h3, h1, h4⟩
  · intro splineEval p st st2 h
    obtain ⟨h1, h2, -, h4, -, -, h7, h8, -⟩ := lcCreateModel_frame splineEval p st st2 h
    exact ⟨h2, h4, h7, h1, h8⟩

/-- C8 witness: the frame property evaluated on a concrete state. -/
theorem c8_witness : stN2.target = stN.target ∧ stN2.reference = stN.reference ∧
    stN2.w = stN.w ∧ stN2.knot_x = stN.knot_x :=
  c8_create_model_frame.1 rotKW convW splineW pV stN stN2 (by
    norm_num [createModel, broadenSpec, Params.getP, pV, stN, stN2, TGN, RFN, rotKW, convW,
      splineW, nanToNum, fvMul, fvDiv, fvSub])

/-- C6: both constructors compute the spline knots once, as the 5
interior grid points `knot_x[i-1] = w[interval*i]`, `i = 1..5`, with
`interval = len(w)/6` (integer division); no operation of a fit session
(`create_model`, `objective`, `load_params`, `best_fit`, in either
variant) changes the stored knot array; and `add_spline_positions` only
adds non-varying (`vary=False`) parameters, so the knots enter the
parameter set as fixed. -/
theorem c6_spline_knots :
    (∀ (t r : Spectrum) (mode opt : String) (st : MatchSt),
      mkMatch t r mode opt = some st →
      st.knot_x.length = 5 ∧
      ∀ i, i < 5 → st.knot_x.get? i = st.w.get? (st.w.length / 6 * (i + 1))) ∧
    (∀ (rotK : ℕ → ℚ → ℚ → List ℚ × List ℚ) (conv1d : List FV → List ℚ → List FV)
      (t : Spectrum) (refs : List Spectrum) (vs : List ℚ) (mode : String) (st : MatchLcSt),
      mkMatchLincomb rotK conv1d t refs vs mode = some st →
      st.knot_x.length = 5 ∧
      ∀ i, i < 5 → st.knot_x.get? i = st.w.get? (st.w.length / 6 * (i + 1))) ∧
    (∀ (rotK : ℕ → ℚ → ℚ → List ℚ × List ℚ) (conv1d : List FV → List ℚ → List FV)
      (splineEval : List ℚ → List FV → List ℚ → List FV) (p : Params) (st st2 : MatchSt),
      createModel rotK conv1d splineEval p st = some st2 → st2.knot_x = st.knot_x) ∧
    (∀ (sqrtQ : ℚ → ℚ) (rotK : ℕ → ℚ → ℚ → List ℚ × List ℚ)
      (conv1d : List FV → List ℚ → List FV) (splineEval : List ℚ → List FV → List ℚ → List FV)
      (p : Params) (st : MatchSt) (ret : ObjRet) (st2 : MatchSt),
      matchObjective sqrtQ rotK conv1d splineEval p st = some (ret, st2) →
      st2.knot_x = st.knot_x) ∧
    (∀ (sqrtQ : ℚ → ℚ) (rotK : ℕ → ℚ → ℚ → List ℚ × List ℚ)
      (conv1d : List FV → List ℚ → List FV) (splineEval : List ℚ → List FV → List ℚ → List FV)
      (p : Params) (st st2 : MatchSt),
      loadParams sqrtQ rotK conv1d splineEval p st = some st2 → st2.knot_x = st.knot_x) ∧
    (∀ (sqrtQ : ℚ → ℚ) (rotK : ℕ → ℚ → ℚ → List ℚ × List ℚ)
      (conv1d : List FV → List ℚ → List FV) (splineEval : List ℚ → List FV → List ℚ → List FV)
      (mf : Params → Params) (p0 : Option Params) (st : MatchSt) (bc : BCVal) (st2 : MatchSt),
      matchBestFit sqrtQ rotK conv1d splineEval mf p0 st = some (bc, st2) →
      st2.knot_x = st.knot_x) ∧
    (∀ (splineEval : List ℚ → List FV → List ℚ → List FV) (p : Params) (st st2 : MatchLcSt),
      lcCreateModel splineEval p st = some st2 → st2.knot_x = st.knot_x) ∧
    (∀ (sqrtQ : ℚ → ℚ) (splineEval : List ℚ → List FV → List ℚ → List FV)
      (p : Params) (st : MatchLcSt) (ret : ObjRet) (st2 : MatchLcSt),
      lcObjective sqrtQ splineEval p st = some (ret, st2) → st2.knot_x = st.knot_x) ∧
    (∀ (sqrtQ : ℚ → ℚ) (splineEval : List ℚ → List FV → List ℚ → List FV)
      (mf : Params → Params) (st : MatchLcSt) (bc : BCVal) (st2 : MatchLcSt),
      lcBestFit sqrtQ splineEval mf st = some (bc, st2) → st2.knot_x = st.knot_x) ∧
    (∀ (ps : Params) (kx : List ℚ) (nm : String) (pd : ParamDef),
      Params.getP (add_spline_positions ps kx) nm = some pd →
      Params.getP ps nm = some pd ∨ pd.vary = false) := by
  have hcm : ∀ (rotK : ℕ → ℚ → ℚ → List ℚ × List ℚ) (conv1d : List FV → List ℚ → List FV)
      (splineEval : List ℚ → List FV → List ℚ → List FV) (p : Params) (st st2 : MatchSt),
      createModel rotK conv1d splineEval p st = some st2 → st2.knot_x = st.knot_x := by
    intro rotK conv1d splineEval p st st2 h
    exact (createModel_frame rotK conv1d splineEval p st st2 h).2.2.2.1
  have hobj : ∀ (sqrtQ : ℚ → ℚ) (rotK : ℕ → ℚ → ℚ → List ℚ × List ℚ)
      (conv1d : List FV → List ℚ → List FV) (splineEval : List ℚ → List FV → List ℚ → List FV)
      (p : Params) (st : MatchSt) (ret : ObjRet) (st2 : MatchSt),
      matchObjective sqrtQ rotK conv1d splineEval p st = some (ret, st2) →
      st2.knot_x = st.knot_x := by
    intro sqrtQ rotK conv1d splineEval p st ret st2 h
    exact hcm rotK conv1d splineEval p st st2
      (matchObjective_parts sqrtQ rotK conv1d splineEval p st ret st2 h).1
  have hlccm : ∀ (splineEval : List ℚ → List FV → List ℚ → List FV) (p : Params)
      (st st2 : MatchLcSt),
      lcCreateModel splineEval p st = some st2 → st2.knot_x = st.knot_x := by
    intro splineEval p st st2 h
    exact (lcCreateModel_frame splineEval p st st2 h).2.2.2.2.2.2.2.1
  have hlcobj : ∀ (sqrtQ : ℚ → ℚ) (splineEval : List ℚ → List FV → List ℚ → List FV)
      (p : Params) (st : MatchLcSt) (ret : ObjRet) (st2 : MatchLcSt),
      lcObjective sqrtQ splineEval p st = some (ret, st2) → st2.knot_x = st.knot_x := by
    intro sqrtQ splineEval p st ret st2 h
    exact hlccm splineEval p st st2 (lcObjective_parts sqrtQ splineEval p st ret st2 h).1
  refine ⟨?_, ?_, hcm, hobj, ?_, ?_, hlccm, hlcobj, ?_, ?_⟩
  · intro t r mode opt st h
    obtain ⟨hw, hkx, -⟩ := mkMatch_fields t r mode opt st h
    obtain ⟨hlen, hget⟩ := knotXOf_get t.w st.knot_x hkx
    rw [hw]
    exact ⟨hlen, hget⟩
  · intro rotK conv1d t refs vs mode st h
    obtain ⟨hw, hkx, -⟩ := mkMatchLincomb_fields rotK conv1d t refs vs mode st h
    obtain ⟨hlen, hget⟩ := knotXOf_get t.w st.knot_x hkx
    rw [hw]
    exact ⟨hlen, hget⟩
  · intro sqrtQ rotK conv1d splineEval p st st2 h
    obtain ⟨ret, st3, h1, h2⟩ := loadParams_parts sqrtQ rotK conv1d splineEval p st st2 h
    rw [h2]
    exact hobj sqrtQ rotK conv1d splineEval p st ret st3 h1
  · intro sqrtQ rotK conv1d splineEval mf p0 st bc st2 h
    obtain ⟨outp, ret, st3, h1, h2, -⟩ :=
      matchBestFit_parts sqrtQ rotK conv1d splineEval mf p0 st bc st2 h
    rw [h2]
    exact hobj sqrtQ rotK conv1d splineEval outp st ret st3 h1
  · intro sqrtQ splineEval mf st bc st2 h
    obtain ⟨outp, ret, st3, h1, h2, -⟩ := lcBestFit_parts sqrtQ splineEval mf st bc st2 h
    rw [h2]
    exact hlcobj sqrtQ splineEval outp st ret st3 h1
  · intro ps kx nm pd h
    simp only [add_spline_positions] at h
    rcases getP_foldl_add_cases (fun i => "knotx_" ++ toString i) (fun i => kx.getD i 0)
      false none none (List.range kx.length) _ nm pd h with h2 | h2
    · rcases getP_add_cases _ _ _ _ _ _ _ _ h2 with h3 | h3
      · exact Or.inl h3
      · subst h3
        exact Or.inr rfl
    · exact Or.inr h2

theorem objectiveRet_cases (sqrtQ : ℚ → ℚ) (mode opt : String) (t m : Spectrum) :
    (opt = "lm" → objectiveRet sqrtQ mode opt t m = ObjRet.vec (residualsCalc sqrtQ mode t m)) ∧
    (opt = "nelder" → objectiveRet sqrtQ mode opt t m =
      ObjRet.scal (fvSum ((residualsCalc sqrtQ mode t m).map fvSq))) := by
  constructor
  · intro h
    subst h
    simp [objectiveRet]
  · intro h
    subst h
    simp [objectiveRet]

/-- C3: the residuals of `Match.objective` are, in `normalized` mode,
elementwise `(target.s - modified.s) / sqrt(target.serr^2 +
modified.serr^2)` and, in any other mode, the unweighted differences
`target.s - modified.s`; the chi-square returned for `opt='nelder'` is
the sum of the squares of exactly these residuals (and `opt='lm'`
returns exactly this residual vector). -/
theorem c3_residual_formula :
    ∀ (sqrtQ : ℚ → ℚ) (rotK : ℕ → ℚ → ℚ → List ℚ × List ℚ)
      (conv1d : List FV → List ℚ → List FV) (splineEval : List ℚ → List FV → List ℚ → List FV)
      (p : Params) (st : MatchSt) (ret : ObjRet) (st2 : MatchSt),
      matchObjective sqrtQ rotK conv1d splineEval p st = some (ret, st2) →
      (st.mode = "normalized" →
        ∀ k a b c d, st2.target.s.get? k = some a → st2.modified.s.get? k = some b →
          st2.target.serr.get? k = some c → st2.modified.serr.get? k = some d →
          (residualsCalc sqrtQ st2.mode st2.target st2.modified).get? k =
            some (fvDiv (fvSub a b) (Option.map sqrtQ (fvAdd (fvSq c) (fvSq d))))) ∧
      (st.mode ≠ "normalized" →
        ∀ k a b, st2.target.s.get? k = some a → st2.modified.s.get? k = some b →
          (residualsCalc sqrtQ st2.mode st2.target st2.modified).get? k = some (fvSub a b)) ∧
      (st.opt = "lm" → ret = ObjRet.vec (residualsCalc sqrtQ st2.mode st2.target st2.modified)) ∧
      (st.opt = "nelder" →
        ret = ObjRet.scal (fvSum ((residualsCalc sqrtQ st2.mode st2.target st2.modified).map fvSq))) := by
  intro sqrtQ rotK conv1d splineEval p st ret st2 h
  obtain ⟨hcm, hret⟩ := matchObjective_parts sqrtQ rotK conv1d splineEval p st ret st2 h
  obtain ⟨-, -, -, -, hmode, hopt, -⟩ := createModel_frame rotK conv1d splineEval p st st2 hcm
  refine ⟨?_, ?_, ?_, ?_⟩
  · intro hm k a b c d ha hb hc hd
    rw [hmode, hm]
    simp only [residualsCalc, if_pos rfl]
    exact get?_zipWith_of _ _ _ _ _ _
      (get?_zipWith_of _ _ _ _ _ _ ha hb)
      (get?_zipWith_of _ _ _ _ _ _ hc hd)
  · intro hm k a b ha hb
    rw [hmode]
    simp only [residualsCalc, if_neg hm]
    exact get?_zipWith_of _ _ _ _ _ _ ha hb
  · intro hlm
    rw [hret, hmode]
    exact (objectiveRet_cases sqrtQ st.mode st2.opt st2.target st2.modified).1 (hopt.trans hlm)
  · intro hnd
    rw [hret, hmode]
    exact (objectiveRet_cases sqrtQ st.mode st2.opt st2.target st2.modified).2 (hopt.trans hnd)

/-- C3 witness: the normalized residual formula evaluated at index 0 of
a concrete session. -/
theorem c3_witness :
    (residualsCalc sqrtW stN2.mode stN2.target stN2.modified).get? 0 =
      some (fvDiv (fvSub (some 3) (some 2))
        (Option.map sqrtW (fvAdd (fvSq (some 1)) (fvSq (some 1))))) :=
  ((c3_residual_formula sqrtW rotKW convW splineW pV stN (ObjRet.scal (some (1 / 4))) stN2 (by
      norm_num [matchObjective, createModel, objectiveRet, residualsCalc, broadenSpec,
        Params.getP, fvSum, fvSq, fvAdd, fvSub, fvDiv, fvMul, nanToNum, sqrtW, rotKW, convW,
        splineW, pV, stN, stN2, TGN, RFN]
      exact fun hcon => absurd hcon (by decide))).1 rfl)
    0 (some 3) (some 2) (some 1) (some 1) rfl rfl rfl rfl

/-- C4: `Match.objective` returns the per-sample residual vector when
`opt='lm'` and the scalar sum of squared residuals when `opt='nelder'`. -/
theorem c4_objective_shape :
    ∀ (sqrtQ : ℚ → ℚ) (rotK : ℕ → ℚ → ℚ → List ℚ × List ℚ)
      (conv1d : List FV → List ℚ → List FV) (splineEval : List ℚ → List FV → List ℚ → List FV)
      (p : Params) (st : MatchSt) (ret : ObjRet) (st2 : MatchSt),
      matchObjective sqrtQ rotK conv1d splineEval p st = some (ret, st2) →
      (st.opt = "lm" → ret = ObjRet.vec (residualsCalc sqrtQ st2.mode st2.target st2.modified)) ∧
      (st.opt = "nelder" →
        ret = ObjRet.scal (fvSum ((residualsCalc sqrtQ st2.mode st2.target st2.modified).map fvSq))) := by
  intro sqrtQ rotK conv1d splineEval p st ret st2 h
  obtain ⟨hcm, hret⟩ := matchObjective_parts sqrtQ rotK conv1d splineEval p st ret st2 h
  obtain ⟨-, -, -, -, -, hopt, -⟩ := createModel_frame rotK conv1d splineEval p st st2 hcm
  constructor
  · intro hlm
    rw [hret]
    exact (objectiveRet_cases sqrtQ st2.mode st2.opt st2.target st2.modified).1 (hopt.trans hlm)
  · intro hnd
    rw [hret]
    exact (objectiveRet_cases sqrtQ st2.mode st2.opt st2.target st2.modified).2 (hopt.trans hnd)

/-- C4 witness: the scalar return shape evaluated on a concrete
`opt='nelder'` session. -/
theorem c4_witness :
    ObjRet.scal (some (1 / 4)) =
      ObjRet.scal (fvSum ((residualsCalc sqrtW stN2.mode stN2.target stN2.modified).map fvSq)) :=
  (c4_objective_shape sqrtW rotKW convW splineW pV stN (ObjRet.scal (some (1 / 4))) stN2 (by
      norm_num [matchObjective, createModel, objectiveRet, residualsCalc, broadenSpec,
        Params.getP, fvSum, fvSq, fvAdd, fvSub, fvDiv, fvMul, nanToNum, sqrtW, rotKW, convW,
        splineW, pV, stN, stN2, TGN, RFN]
      exact fun hcon => absurd hcon (by decide))).2 rfl

/-- C9: `Match.load_params(p)` stores the raw return value of
`objective(p)` as `best_chisq` — the residual *vector* when `opt='lm'`,
the scalar chi-square when `opt='nelder'` — and stores `p` as
`best_params`. -/
theorem c9_load_params :
    ∀ (sqrtQ : ℚ → ℚ) (rotK : ℕ → ℚ → ℚ → List ℚ × List ℚ)
      (conv1d : List FV → List ℚ → List FV) (splineEval : List ℚ → List FV → List ℚ → List FV)
      (p : Params) (st st2 : MatchSt),
      loadParams sqrtQ rotK conv1d splineEval p st = some st2 →
      st2.best_params = p ∧
      ∃ ret st3, matchObjective sqrtQ rotK conv1d splineEval p st = some (ret, st3) ∧
        st2.best_chisq = bcOfRet ret ∧
        (st.opt = "lm" → ret = ObjRet.vec (residualsCalc sqrtQ st3.mode st3.target st3.modified)) ∧
        (st.opt = "nelder" →
          ret = ObjRet.scal (fvSum ((residualsCalc sqrtQ st3.mode st3.target st3.modified).map fvSq))) := by
  intro sqrtQ rotK conv1d splineEval p st st2 h
  obtain ⟨ret, st3, h1, h2⟩ := loadParams_parts sqrtQ rotK conv1d splineEval p st st2 h
  obtain ⟨hcm, hret⟩ := matchObjective_parts sqrtQ rotK conv1d splineEval p st ret st3 h1
  obtain ⟨-, -, -, -, -, hopt, -⟩ := createModel_frame rotK conv1d splineEval p st st3 hcm
  subst h2
  refine ⟨rfl, ret, st3, h1, rfl, ?_, ?_⟩
  · intro hlm
    rw [hret]
    exact (objectiveRet_cases sqrtQ st3.mode st3.opt st3.target st3.modified).1 (hopt.trans hlm)
  · intro hnd
    rw [hret]
    exact (objectiveRet_cases sqrtQ st3.mode st3.opt st3.target st3.modified).2 (hopt.trans hnd)

/-- C9 witness: `load_params` on a concrete `opt='lm'` session stores
the given parameters (and, per the theorem, the raw residual vector). -/
theorem c9_witness : stL2.best_params = pV :=
  (c9_load_params sqrtW rotKW convW splineW pV stL stL2 (by
    norm_num [loadParams, matchObjective, createModel, objectiveRet, residualsCalc,
      broadenSpec, Params.getP, bcOfRet, fvSum, fvSq, fvAdd, fvSub, fvDiv, fvMul, nanToNum,
      sqrtW, rotKW, convW, splineW, pV, stL, stL2, stN, TGN, RFN])).1

/-- C6 witness: the knot computation evaluated on a concrete session. -/
theorem c6_witness : stC.knot_x.length = 5 :=
  (c6_spline_knots.1 TG RF "default" "nelder" stC (by
    norm_num [mkMatch, allcloseQ, isCloseQ, knotXOf, seqOpt, sanitizeSpec, sanitizeV,
      TG, RF, stC])).1

/-- C5: for a `MatchLincomb` session (whose `opt` is always `'nelder'`),
`objective` returns the inherited single-reference objective value
(chi-square of the linear-combination model) plus the Gaussian-prior
penalty `(sum(coeffs) - 1)^2 / (2 * WIDTH^2)` with `WIDTH = 1e-2`; the
coefficients enter the score through this additive penalty only. -/
theorem c5_lincomb_prior :
    ∀ (sqrtQ : ℚ → ℚ) (splineEval : List ℚ → List FV → List ℚ → List FV)
      (p : Params) (st : MatchLcSt) (ret : ObjRet) (st2 : MatchLcSt) (cs : List ℚ),
      st.opt = "nelder" →
      get_lincomb_coeffs p = some cs →
      lcObjective sqrtQ splineEval p st = some (ret, st2) →
      lcCreateModel splineEval p st = some st2 ∧
      objectiveRet sqrtQ st2.mode st2.opt st2.target st2.modified =
        ObjRet.scal (fvSum ((residualsCalc sqrtQ st2.mode st2.target st2.modified).map fvSq)) ∧
      ret = ObjRet.scal (fvAdd
        (fvSum ((residualsCalc sqrtQ st2.mode st2.target st2.modified).map fvSq))
        (some ((cs.sum - 1) ^ 2 / (2 * (1 / 100 : ℚ) ^ 2)))) := by
  intro sqrtQ splineEval p st ret st2 cs hopt hcs h
  obtain ⟨hcm, cs2, hcs2, hdisj⟩ := lcObjective_parts sqrtQ splineEval p st ret st2 h
  have hcseq : cs2 = cs := by
    rw [hcs] at hcs2
    injection hcs2 with h2
    exact h2.symm
  subst hcseq
  obtain ⟨-, -, -, -, -, -, -, -, -, hopt2, -⟩ := lcCreateModel_frame splineEval p st st2 hcm
  have hscal : objectiveRet sqrtQ st2.mode st2.opt st2.target st2.modified =
      ObjRet.scal (fvSum ((residualsCalc sqrtQ st2.mode st2.target st2.modified).map fvSq)) :=
    (objectiveRet_cases sqrtQ st2.mode st2.opt st2.target st2.modified).2 (hopt2.trans hopt)
  refine ⟨hcm, hscal, ?_⟩
  rcases hdisj with ⟨r, hr, -⟩ | ⟨c, hc, hret⟩
  · rw [hscal] at hr
    exact absurd hr (by simp)
  · rw [hscal] at hc
    injection hc with h3
    rw [hret, h3]

/-- C5 witness: the linear-combination model builder evaluated on a
concrete session with one reference and coefficient 1. -/
theorem c5_witness : lcCreateModel splineW pLC stLCc = some stLCc2 :=
  (c5_lincomb_prior sqrtW splineW pLC stLCc (ObjRet.scal (some 1)) stLCc2 [1] rfl
    (by
      have e0 : ("coeff_" ++ toString 0) = "coeff_0" := rfl
      have ne1 : ("num_refs" : String) ≠ "coeff_0" := by decide
      norm_num [e0, ne1, get_lincomb_coeffs, Params.getP, qToNat, seqOpt, pLC])
    (by
      have e0 : ("coeff_" ++ toString 0) = "coeff_0" := rfl
      have ne1 : ("num_refs" : String) ≠ "coeff_0" := by decide
      have ne2 : ("nelder" : String) ≠ "lm" := by decide
      have ne3 : ("default" : String) ≠ "normalized" := by decide
      norm_num [e0, ne1, ne2, ne3, lcObjective, lcCreateModel, get_lincomb_coeffs, Params.getP, qToNat,
        seqOpt, lincombLoop, objectiveRet, residualsCalc, fvSum, fvSq, fvAdd, fvSub, fvDiv,
        fvMul, fvSMul, splineW, sqrtW, pLC, stLCc, stLCc2, TGN, RFN, mkSpectrum])).1

/-- C10: after `MatchLincomb` construction the stored reference list and
the broadened list are the same list — `broaden` mutates its argument
(the copied reference) in place and returns it — so each stored
reference holds the convolution-broadened flux of the input reference,
and the un-broadened copy is not retained. -/
theorem c10_refs_broadened :
    ∀ (rotK : ℕ → ℚ → ℚ → List ℚ × List ℚ) (conv1d : List FV → List ℚ → List FV)
      (t : Spectrum) (refs : List Spectrum) (vs : List ℚ) (mode : String) (st : MatchLcSt),
      mkMatchLincomb rotK conv1d t refs vs mode = some st →
      st.refs = st.broadened ∧
      ∀ i v r, vs.get? i = some v → refs.get? i = some r →
        ∃ sp2, broadenSpec rotK conv1d t.w v r = some sp2 ∧
          st.refs.get? i = some sp2 ∧ st.broadened.get? i = some sp2 ∧
          ∃ k, sp2.s = conv1d r.s k ∧ sp2.serr = conv1d r.serr k := by
  intro rotK conv1d t refs vs mode st h
  obtain ⟨-, -, -, hrb, -, -, -, hseq⟩ := mkMatchLincomb_fields rotK conv1d t refs vs mode st h
  obtain ⟨hlen, hget⟩ := seqOpt_eq_some _ _ _ hseq
  refine ⟨hrb, fun i v r hv hr => ?_⟩
  have hir : i < refs.length := by
    by_contra hge
    rw [List.get?_eq_none.mpr (by omega)] at hr
    exact absurd hr (by simp)
  have hbro : st.broadened.get? i = broadenSpec rotK conv1d t.w v r := by
    rw [hget i, List.get?_range hir]
    show (match vs.get? i, refs.get? i with
      | some v, some r => broadenSpec rotK conv1d t.w v r
      | _, _ => none) = broadenSpec rotK conv1d t.w v r
    rw [hv, hr]
  have hsome : (st.broadened.get? i).isSome := by
    rw [List.get?_eq_get (by rw [hlen, List.length_range]; exact hir)]
    rfl
  obtain ⟨sp2, hsp2⟩ := Option.isSome_iff_exists.mp hsome
  rw [hsp2] at hbro
  obtain ⟨-, -, k, hk1, hk2⟩ := broadenSpec_fields _ _ _ _ _ _ hbro.symm
  exact ⟨sp2, hbro.symm, by rw [hrb]; exact hsp2, hsp2, k, hk1, hk2⟩

/-- C10 witness: the stored reference list equals the broadened list on
a concrete construction. -/
theorem c10_witness : stLCc.refs = stLCc.broadened :=
  (c10_refs_broadened rotKW convW TGN [RFN] [1] "default" stLCc (by
    have e1 : ("Linear Combination " ++ toString 1) = "Linear Combination 1" := rfl
    norm_num [e1, mkMatchLincomb, checkGrids, allcloseQ, isCloseQ, knotXOf, seqOpt, broadenSpec,
      rotKW, convW, mkSpectrum, TGN, RFN, stLCc])).1

theorem createModel_again (rotK : ℕ → ℚ → ℚ → List ℚ × List ℚ)
    (conv1d : List FV → List ℚ → List FV) (splineEval : List ℚ → List FV → List ℚ → List FV)
    (p : Params) (st st2 : MatchSt)
    (h : createModel rotK conv1d splineEval p st = some st2) :
    createModel rotK conv1d splineEval p st2 = some st2 := by
  unfold createModel at h ⊢
  cases hvp : Params.getP p ("vsini") with
  | none =>
    rw [hvp] at h
    exact absurd h (by simp)
  | some vp =>
    rw [hvp] at h
    simp only [] at h ⊢
    cases hb : broadenSpec rotK conv1d st.w vp.value
        ⟨st.modified.w, st.reference.s.map nanToNum, st.reference.serr.map nanToNum,
          st.modified.name⟩ with
    | none =>
      rw [hb] at h
      simp at h
    | some m2 =>
      rw [hb] at h
      simp only [Option.some.injEq] at h
      obtain ⟨hw2, hn2, -⟩ := broadenSpec_fields _ _ _ _ _ _ hb
      subst h
      simp only []
      rw [(show m2.w = st.modified.w from hw2), (show m2.name = st.modified.name from hn2)]
      rw [hb]
      simp only []
      rw [(show m2.w = st.modified.w from hw2), (show m2.name = st.modified.name from hn2)]

theorem lcCreateModel_again (splineEval : List ℚ → List FV → List ℚ → List FV)
    (p : Params) (st st2 : MatchLcSt)
    (h : lcCreateModel splineEval p st = some st2) :
    lcCreateModel splineEval p st2 = some st2 := by
  unfold lcCreateModel at h ⊢
  cases hcs : get_lincomb_coeffs p with
  | none =>
    rw [hcs] at h
    exact absurd h (by simp)
  | some coeffs =>
    rw [hcs] at h
    simp only [] at h ⊢
    cases hloop : lincombLoop st.broadened coeffs (List.range st.num_refs)
        (st.w.map (fun _ => some 0), st.w.map (fun _ => some 0)) with
    | none =>
      rw [hloop] at h
      simp at h
    | some acc =>
      rw [hloop] at h
      simp only [Option.some.injEq] at h
      subst h
      simp only []
      rw [hloop]

theorem createModel_best (rotK : ℕ → ℚ → ℚ → List ℚ × List ℚ)
    (conv1d : List FV → List ℚ → List FV) (splineEval : List ℚ → List FV → List ℚ → List FV)
    (p : Params) (st : MatchSt) (a : Params) (b : BCVal) :
    createModel rotK conv1d splineEval p { st with best_params := a, best_chisq := b } =
      Option.map (fun s2 => { s2 with best_params := a, best_chisq := b })
        (createModel rotK conv1d splineEval p st) := by
  unfold createModel
  cases hvp : Params.getP p ("vsini") with
  | none => rfl
  | some vp =>
    simp only []
    cases hb : broadenSpec rotK conv1d st.w vp.value
        ⟨st.modified.w, st.reference.s.map nanToNum, st.reference.serr.map nanToNum,
          st.modified.name⟩ with
    | none => rfl
    | some m2 => rfl

theorem lcCreateModel_best (splineEval : List ℚ → List FV → List ℚ → List FV)
    (p : Params) (st : MatchLcSt) (a : Params) (b : BCVal) :
    lcCreateModel splineEval p { st with best_params := a, best_chisq := b } =
      Option.map (fun s2 => { s2 with best_params := a, best_chisq := b })
        (lcCreateModel splineEval p st) := by
  unfold lcCreateModel
  cases hcs : get_lincomb_coeffs p with
  | none => rfl
  | some coeffs =>
    simp only []
    cases hloop : lincombLoop st.broadened coeffs (List.range st.num_refs)
        (st.w.map (fun _ => some 0), st.w.map (fun _ => some 0)) with
    | none => rfl
    | some acc => rfl

theorem matchObjective_again (sqrtQ : ℚ → ℚ) (rotK : ℕ → ℚ → ℚ → List ℚ × List ℚ)
    (conv1d : List FV → List ℚ → List FV) (splineEval : List ℚ → List FV → List ℚ → List FV)
    (p : Params) (st : MatchSt) (r : ObjRet) (st2 : MatchSt)
    (h : matchObjective sqrtQ rotK conv1d splineEval p st = some (r, st2)) :
    matchObjective sqrtQ rotK conv1d splineEval p st2 = some (r, st2) := by
  obtain ⟨hcm, hret⟩ := matchObjective_parts sqrtQ rotK conv1d splineEval p st r st2 h
  have hcm2 := createModel_again rotK conv1d splineEval p st st2 hcm
  unfold matchObjective
  rw [hcm2, hret]

theorem matchObjective_best (sqrtQ : ℚ → ℚ) (rotK : ℕ → ℚ → ℚ → List ℚ × List ℚ)
    (conv1d : List FV → List ℚ → List FV) (splineEval : List ℚ → List FV → List ℚ → List FV)
    (p : Params) (st : MatchSt) (a : Params) (b : BCVal) :
    matchObjective sqrtQ rotK conv1d splineEval p { st with best_params := a, best_chisq := b } =
      Option.map (fun pr => (pr.1, { pr.2 with best_params := a, best_chisq := b }))
        (matchObjective sqrtQ rotK conv1d splineEval p st) := by
  unfold matchObjective
  rw [createModel_best]
  cases hcm : createModel rotK conv1d splineEval p st with
  | none => rfl
  | some st3 => rfl

theorem lcObjective_again (sqrtQ : ℚ → ℚ) (splineEval : List ℚ → List FV → List ℚ → List FV)
    (p : Params) (st : MatchLcSt) (r : ObjRet) (st2 : MatchLcSt)
    (h : lcObjective sqrtQ splineEval p st = some (r, st2)) :
    lcObjective sqrtQ splineEval p st2 = some (r, st2) := by
  obtain ⟨hcm, cs, hcs, hdisj⟩ := lcObjective_parts sqrtQ splineEval p st r st2 h
  have hcm2 := lcCreateModel_again splineEval p st st2 hcm
  unfold lcObjective
  rw [hcm2, hcs]
  simp only []
  rcases hdisj with ⟨r0, hr0, hret⟩ | ⟨c0, hc0, hret⟩
  · rw [hr0]
    simp only []
    rw [hret]
  · rw [hc0]
    simp only []
    rw [hret]

theorem lcObjective_best (sqrtQ : ℚ → ℚ) (splineEval : List ℚ → List FV → List ℚ → List FV)
    (p : Params) (st : MatchLcSt) (a : Params) (b : BCVal) :
    lcObjective sqrtQ splineEval p { st with best_params := a, best_chisq := b } =
      Option.map (fun pr => (pr.1, { pr.2 with best_params := a, best_chisq := b }))
        (lcObjective sqrtQ splineEval p st) := by
  unfold lcObjective
  rw [lcCreateModel_best]
  cases hcm : lcCreateModel splineEval p st with
  | none => rfl
  | some st3 =>
    simp only [Option.map_some']
    cases hcs : get_lincomb_coeffs p with
    | none => rfl
    | some cs =>
      simp only []
      cases hor : objectiveRet sqrtQ st3.mode st3.opt st3.target st3.modified with
      | vec r0 => rfl
      | scal c0 => rfl
      | pynone => rfl

/-- C7: objective evaluation has no hidden mutable state: evaluating the
objective twice at the same parameters returns the same value (and the
state reached after the first call is a fixed point), in both variants;
and the `best_chisq` stored by `best_fit` is reproduced by re-evaluating
the objective at the stored `best_params` on the post-fit state — for
`opt='lm'` it is the sum of squared residuals of the re-evaluated
residual vector, for `opt='nelder'` (and for `MatchLincomb`) it is the
re-evaluated objective value itself. -/
theorem c7_deterministic_scoring :
    (∀ (sqrtQ : ℚ → ℚ) (rotK : ℕ → ℚ → ℚ → List ℚ × List ℚ)
      (conv1d : List FV → List ℚ → List FV) (splineEval : List ℚ → List FV → List ℚ → List FV)
      (p : Params) (st : MatchSt) (r : ObjRet) (st2 : MatchSt),
      matchObjective sqrtQ rotK conv1d splineEval p st = some (r, st2) →
      matchObjective sqrtQ rotK conv1d splineEval p st2 = some (r, st2)) ∧
    (∀ (sqrtQ : ℚ → ℚ) (splineEval : List ℚ → List FV → List ℚ → List FV)
      (p : Params) (st : MatchLcSt) (r : ObjRet) (st2 : MatchLcSt),
      lcObjective sqrtQ splineEval p st = some (r, st2) →
      lcObjective sqrtQ splineEval p st2 = some (r, st2)) ∧
    (∀ (sqrtQ : ℚ → ℚ) (rotK : ℕ → ℚ → ℚ → List ℚ × List ℚ)
      (conv1d : List FV → List ℚ → List FV) (splineEval : List ℚ → List FV → List ℚ → List FV)
      (mf : Params → Params) (p0 : Option Params) (st : MatchSt) (bc : BCVal) (st2 : MatchSt),
      matchBestFit sqrtQ rotK conv1d splineEval mf p0 st = some (bc, st2) →
      st2.best_chisq = bc ∧
      ∃ ret, matchObjective sqrtQ rotK conv1d splineEval st2.best_params st2 = some (ret, st2) ∧
        (st.opt = "lm" → ∃ res, ret = ObjRet.vec res ∧ bc = ObjRet.scal (fvSum (res.map fvSq))) ∧
        (st.opt = "nelder" → bc = bcOfRet ret)) ∧
    (∀ (sqrtQ : ℚ → ℚ) (splineEval : List ℚ → List FV → List ℚ → List FV)
      (mf : Params → Params) (st : MatchLcSt) (bc : BCVal) (st2 : MatchLcSt),
      lcBestFit sqrtQ splineEval mf st = some (bc, st2) →
      st2.best_chisq = bc ∧
      ∃ ret, lcObjective sqrtQ splineEval st2.best_params st2 = some (ret, st2) ∧
        bc = bcOfRet ret) := by
  refine ⟨matchObjective_again, lcObjective_again, ?_, ?_⟩
  · intro sqrtQ rotK conv1d splineEval mf p0 st bc st2 h
    obtain ⟨outp, ret, st3, hobj, hst2, hbr⟩ :=
      matchBestFit_parts sqrtQ rotK conv1d splineEval mf p0 st bc st2 h
    obtain ⟨hcm, hret⟩ := matchObjective_parts sqrtQ rotK conv1d splineEval outp st ret st3 hobj
    obtain ⟨-, -, -, -, -, hopt3, -⟩ := createModel_frame rotK conv1d splineEval outp st st3 hcm
    subst hst2
    refine ⟨rfl, ret, ?_, ?_, ?_⟩
    · have h2 := matchObjective_again sqrtQ rotK conv1d splineEval outp st ret st3 hobj
      have h4 := matchObjective_best sqrtQ rotK conv1d splineEval outp st3 outp bc
      rw [h2, Option.map_some'] at h4
      exact h4
    · intro hlm
      rcases hbr with ⟨-, ⟨res, hres, hbc⟩ | ⟨c, hc, hbc⟩⟩ | ⟨hnd, -⟩
      · exact ⟨res, hres, hbc⟩
      · have hvec := (objectiveRet_cases sqrtQ st3.mode st3.opt st3.target st3.modified).1
          (hopt3.trans hlm)
        rw [← hret] at hvec
        rw [hvec] at hc
        exact absurd hc (by simp)
      · exact absurd (hlm.symm.trans hnd) (by decide)
    · intro hnd
      rcases hbr with ⟨hlm, -⟩ | ⟨-, hbc⟩
      · exact absurd (hnd.symm.trans hlm) (by decide)
      · exact hbc
  · intro sqrtQ splineEval mf st bc st2 h
    obtain ⟨outp, ret, st3, hobj, hst2, hbc⟩ := lcBestFit_parts sqrtQ splineEval mf st bc st2 h
    subst hst2
    refine ⟨hbc.symm, ret, ?_, hbc⟩
    have h2 := lcObjective_again sqrtQ splineEval outp st ret st3 hobj
    have h4 := lcObjective_best sqrtQ splineEval outp st3 outp (bcOfRet ret)
    rw [h2, Option.map_some'] at h4
    exact h4

/-- C7 witness: re-evaluating the objective on the post-evaluation state
of a concrete session reproduces the same chi-square and state. -/
theorem c7_witness :
    matchObjective sqrtW rotKW convW splineW pV stN2 = some (ObjRet.scal (some (1 / 4)), stN2) :=
  c7_deterministic_scoring.1 sqrtW rotKW convW splineW pV stN (ObjRet.scal (some (1 / 4))) stN2
    (by
      norm_num [matchObjective, createModel, objectiveRet, residualsCalc, broadenSpec,
        Params.getP, fvSum, fvSq, fvAdd, fvSub, fvDiv, fvMul, nanToNum, sqrtW, rotKW, convW,
        splineW, pV, stN, stN2, TGN, RFN]
      exact fun hcon => absurd hcon (by decide))

end SpecmatchEmp
